import Mathlib

/-!
Verification development for the SyncWave audio fan-out / streaming program.

The Python sources are shallowly embedded below: pure fragments become Lean
functions, stateful methods become explicit state-passing functions on record
types, and the behaviour of the OS audio layer (which device opens succeed,
which socket sends succeed) is abstracted into explicit environment values.
Machine integers are modelled as Int with explicit wrapping where the source
can overflow; byte buffers are lists of Nat (each entry one byte, 0..255).
-/

/-! ## Audio engine (audio_sync.py) -/

/-- One PCM block: the interleaved signed-16-bit samples obtained from one
4096-frame read, as in `np.frombuffer(data, dtype=np.int16)`
(audio_sync.py line 192). -/
abbrev Block := List Int

/-- Wrap an integer into the signed 16-bit range, as numpy's cast to int16
does on the supported platform (two's-complement wraparound). -/
def int16wrap (x : Int) : Int := (x + 32768) % 65536 - 32768

/-- Truncation-toward-zero division, the rounding performed by
`.astype(np.int16)` on the float product in audio_sync.py line 202.
For the ranges relevant here (|s| ≤ 32768, gain ≤ 100) the float64 value
`sample * (gain / 100.0)` is within 2⁻³⁰ of the exact rational
`sample * gain / 100`, so truncating the exact rational models the cast up
to the one-LSB slack the specification itself allows. -/
def truncDiv (a b : Int) : Int := if 0 ≤ a then a / b else -((-a) / b)

/-- Per-sample gain stage: `(audio_array * volume_factor).astype(np.int16)`
with `volume_factor = v / 100.0` (audio_sync.py lines 198–202). -/
def applyVolume (v : Nat) (s : Int) : Int := int16wrap (truncDiv (s * v) 100)

/-- Per-sample view of the branch at audio_sync.py lines 200–206: gain 100
writes the sample unchanged, any other gain goes through the scale-and-cast
path. -/
def emitSample (v : Nat) (s : Int) : Int :=
  if v = 100 then s else applyVolume v s

/-- What stream number `i` receives for one captured block
(audio_sync.py lines 195–208): look up `self.volumes[i]`; an out-of-range
index raises IndexError, which the per-sink `except` swallows, so nothing is
written (`none`). Gain 100 passes the original block through byte-for-byte
(`stream.write(data)`); otherwise each sample is scaled and cast. -/
def emitBlock (volumes : List Nat) (i : Nat) (block : Block) : Option Block :=
  match volumes[i]? with
  | none => none
  | some v => some (if v = 100 then block else block.map (applyVolume v))

/-- All blocks written to stream number `i` over a whole session
(the steady-state loop of audio_sync.py lines 187–212 applied to each
captured block in order). Note that `self.delays` is never consulted by the
loop: no delay line exists and no silence is ever prepended. -/
def sinkReceived (volumes : List Nat) (i : Nat) (blocks : List Block) : List Block :=
  blocks.filterMap (emitBlock volumes i)

/-- Behaviour of the host audio layer: which opens succeed and each device's
reported default sample rate. -/
structure AudioEnv where
  defaultRate : Nat → Nat
  inputOpenOk : Nat → Nat → Bool
  outputOpenOk : Nat → Nat → Bool

/-- Input negotiation (audio_sync.py lines 121–151): try the device's
reported default rate, fall back to 44100; if both fail the exception
escapes to the worker's catch-all handler (modelled as `none`). -/
def negotiateInput (env : AudioEnv) (idx : Nat) : Option Nat :=
  let r := env.defaultRate idx
  if env.inputOpenOk idx r then some r
  else if env.inputOpenOk idx 44100 then some 44100
  else none

/-- Output negotiation (audio_sync.py lines 153–183): for each entry of
`self.output_indices` in order, try the negotiated rate then 44100; on a
double failure the device is dropped (logged only). Duplicate indices are
kept: each occurrence opens its own stream. -/
def negotiateOutputs (env : AudioEnv) (idxs : List Nat) (rate : Nat) : List (Nat × Nat) :=
  idxs.filterMap (fun i =>
    if env.outputOpenOk i rate then some (i, rate)
    else if env.outputOpenOk i 44100 then some (i, 44100)
    else none)

/-- The worker body `_loop` (audio_sync.py lines 82–233) restricted to its
observable output: `none` when the capture stream cannot be opened at either
rate (the session dies with a logged error and no sink receives anything),
otherwise the per-stream lists of written blocks. The loop runs even when
`negotiateOutputs` dropped every sink (the result is then `some []`). -/
def loopRun (env : AudioEnv) (idx : Nat) (idxs : List Nat) (volumes : List Nat)
    (blocks : List Block) : Option (List (List Block)) :=
  match negotiateInput env idx with
  | none => none
  | some rate =>
      let streams := negotiateOutputs env idxs rate
      some ((List.range streams.length).map (fun i => sinkReceived volumes i blocks))

/-- Result reported to the caller of `SyncEngine.start`. The error
constructors exist only to state the specification's claims; the source
method has no failure path. -/
inductive StartOutcome where
  | ok
  | deviceOpenError
  | noUsableSinks
  | alreadyRunning
deriving DecidableEq

/-- The engine state: the fields of `SyncEngine.__init__` plus the fields
assigned by `start` (audio_sync.py lines 19–26 and 60–80). `thread_count`
counts worker threads spawned, to make the side effects of `start` visible. -/
structure SyncEngine where
  input_device_index : Option Nat
  output_indices : List Nat
  use_loopback : Bool
  volumes : List Nat
  delays : List Nat
  is_running : Bool
  thread_count : Nat
deriving DecidableEq

/-- `SyncEngine.__init__` (audio_sync.py lines 20–26). -/
def SyncEngine.init : SyncEngine :=
  { input_device_index := none, output_indices := [], use_loopback := false,
    volumes := [], delays := [], is_running := false, thread_count := 0 }

/-- Python truthiness default `xs if xs else d`: None and the empty list both
fall back to the default (audio_sync.py lines 75–76). -/
def pyListOrDefault (o : Option (List Nat)) (d : List Nat) : List Nat :=
  match o with
  | none => d
  | some l => if l.isEmpty then d else l

/-- `SyncEngine.start` (audio_sync.py lines 60–80). The method performs no
state check and no device I/O: it overwrites the session parameters, sets
`is_running`, spawns a worker thread and returns `None` — every call reports
success, regardless of the previous state or of device availability
(all device opens happen later, inside `_loop`, where exceptions are caught
and logged). -/
def SyncEngine.start (e : SyncEngine) (inputIndex : Nat) (outputIndices : List Nat)
    (useLoopback : Bool) (volumes delays : Option (List Nat)) :
    SyncEngine × StartOutcome :=
  ({ e with
      input_device_index := some inputIndex,
      output_indices := outputIndices,
      use_loopback := useLoopback,
      volumes := pyListOrDefault volumes (List.replicate outputIndices.length 100),
      delays := pyListOrDefault delays (List.replicate outputIndices.length 0),
      is_running := true,
      thread_count := e.thread_count + 1 },
   StartOutcome.ok)

/-- The session run belonging to an engine state: `_loop` reads
`self.input_device_index`, `self.output_indices` and `self.volumes`; it never
reads `self.delays`. -/
def SyncEngine.runSession (env : AudioEnv) (e : SyncEngine) (blocks : List Block) :
    Option (List (List Block)) :=
  loopRun env (e.input_device_index.getD 0) e.output_indices e.volumes blocks

/-- An environment in which every device opens successfully at any rate. -/
def envAllOpen : AudioEnv :=
  { defaultRate := fun _ => 44100, inputOpenOk := fun _ _ => true,
    outputOpenOk := fun _ _ => true }

/-- An environment in which no device can be opened at any rate. -/
def envNoDevices : AudioEnv :=
  { defaultRate := fun _ => 48000, inputOpenOk := fun _ _ => false,
    outputOpenOk := fun _ _ => false }

/-- An environment in which the capture opens but no output device does. -/
def envNoOutputs : AudioEnv :=
  { defaultRate := fun _ => 48000, inputOpenOk := fun _ _ => true,
    outputOpenOk := fun _ _ => false }

/-- C4: for every gain in [0,100] and 16-bit sample, the emitted sample is
within one LSB of `input * gain / 100`, and gain 100 passes the block through
unchanged. -/
theorem gain_stage_within_one_lsb (v : Nat) (s : Int) (vols : List Nat) (i : Nat)
    (block : Block) (hv : v ≤ 100) (hs1 : -32768 ≤ s) (hs2 : s ≤ 32767) :
    (100 * emitSample v s - s * v).natAbs < 100 ∧
    (vols[i]? = some 100 → emitBlock vols i block = some block) := by
  constructor
  · by_cases h : v = 100
    · subst h
      have he : emitSample 100 s = s := by simp [emitSample]
      rw [he]
      have : ((100 : Nat) : Int) = 100 := rfl
      rw [this]
      omega
    · have he : emitSample v s = applyVolume v s := by simp [emitSample, h]
      rw [he]
      have hv99 : v ≤ 99 := by omega
      have hv0 : (0 : Int) ≤ (v : Int) := Int.ofNat_nonneg v
      have hv99i : (v : Int) ≤ 99 := by exact_mod_cast hv99
      have hb1 : -3244032 ≤ s * (v : Int) := by nlinarith
      have hb2 : s * (v : Int) ≤ 3243933 := by nlinarith
      unfold applyVolume int16wrap truncDiv
      generalize hA : s * (v : Int) = a at hb1 hb2 ⊢
      split <;> omega
  · intro h
    simp [emitBlock, h]

/-- C4 witness: gain 50 on amplitude 10000 emits within one LSB of 5000, and
a gain-100 sink receives the block unchanged. -/
theorem gain_stage_within_one_lsb_witness :
    (100 * emitSample 50 10000 - 10000 * 50).natAbs < 100 ∧
    emitBlock [100] 0 [3, -7] = some [3, -7] := by
  have h := gain_stage_within_one_lsb 50 10000 [100] 0 [3, -7]
    (by decide) (by decide) (by decide)
  exact ⟨h.1, h.2 rfl⟩

/-- C1: the delays handed to `start` are stored in the engine state but the
steady-state loop never consults them: a sink configured with a 100 ms delay
receives all three captured blocks unchanged and immediately, with no blocks
of silence prepended (the specification expects 2 silence blocks followed by
1 real block for delay 100 ms at 4096 frames / 44.1 kHz). -/
theorem delays_stored_but_never_applied :
    ((SyncEngine.init.start 0 [0] false (some [100]) (some [100])).1).delays = [100] ∧
    SyncEngine.runSession envAllOpen
      ((SyncEngine.init.start 0 [0] false (some [100]) (some [100])).1)
      [[5, 6], [7, 8], [9, 10]] = some [[[5, 6], [7, 8], [9, 10]]] := by
  constructor
  · rfl
  · rfl

/-- A started engine, used as the concrete running state for the C7
counterexample. -/
def runningEngine : SyncEngine :=
  { input_device_index := some 3, output_indices := [2], use_loopback := false,
    volumes := [100], delays := [0], is_running := true, thread_count := 1 }

/-- C7 counterexample: calling `start` while the engine is running is not
rejected — it reports success, overwrites the session parameters
(input index 3 becomes 7) and spawns a second worker thread. -/
theorem start_while_running_counterexample :
    runningEngine.is_running = true ∧
    (runningEngine.start 7 [1] false none none).2 = StartOutcome.ok ∧
    (runningEngine.start 7 [1] false none none).1.input_device_index = some 7 ∧
    (runningEngine.start 7 [1] false none none).1.thread_count = 2 := by
  refine ⟨rfl, rfl, rfl, rfl⟩

/-- C7 amended: `start` performs no state check: called while a session is
running it still reports success, overwrites the stored parameters, leaves
`is_running` true and spawns one more worker thread. -/
theorem start_while_running_overwrites (e : SyncEngine) (i : Nat) (outs : List Nat)
    (ul : Bool) (v d : Option (List Nat)) (h : e.is_running = true) :
    (e.start i outs ul v d).2 = StartOutcome.ok ∧
    (e.start i outs ul v d).1.is_running = true ∧
    (e.start i outs ul v d).1.input_device_index = some i ∧
    (e.start i outs ul v d).1.output_indices = outs ∧
    (e.start i outs ul v d).1.thread_count = e.thread_count + 1 := by
  refine ⟨rfl, rfl, rfl, rfl, rfl⟩

/-- C7 witness: the amended statement at the concrete running engine. -/
theorem start_while_running_overwrites_witness :
    (runningEngine.start 7 [1] false none none).1.thread_count = 2 := by
  have h := start_while_running_overwrites runningEngine 7 [1] false none none rfl
  exact h.2.2.2.2

/-- C2 counterexample: in an environment where the capture device opens at
neither its default rate (48000) nor the 44.1 kHz fallback, `start` still
reports success to the caller (the worker later dies with a logged error,
delivering nothing); and in an environment where every sink fails
negotiation, the session runs with an empty sink set instead of failing with
NoUsableSinks. -/
theorem start_never_fails_counterexample :
    (SyncEngine.init.start 0 [1] false none none).2 = StartOutcome.ok ∧
    negotiateInput envNoDevices 0 = none ∧
    loopRun envNoDevices 0 [1] [100] [[7]] = none ∧
    negotiateOutputs envNoOutputs [1, 2] 48000 = [] ∧
    loopRun envNoOutputs 0 [1, 2] [100, 100] [[7]] = some [] := by
  refine ⟨rfl, rfl, rfl, rfl, rfl⟩

/-- C2 amended: `start` always reports success; device negotiation happens on
the worker thread, where a capture that opens at neither its default rate nor
44100 kills the session silently (no sink receives anything), and dropping
every sink leaves the session running with an empty active set rather than
failing with NoUsableSinks. -/
theorem start_never_fails (e : SyncEngine) (i : Nat) (outs : List Nat) (ul : Bool)
    (v d : Option (List Nat)) (env : AudioEnv) (idx : Nat) (sinks : List Nat)
    (vols : List Nat) (blocks : List Block) :
    (e.start i outs ul v d).2 = StartOutcome.ok ∧
    (env.inputOpenOk idx (env.defaultRate idx) = false →
      env.inputOpenOk idx 44100 = false →
      loopRun env idx sinks vols blocks = none) ∧
    (∀ rate, negotiateInput env idx = some rate →
      negotiateOutputs env sinks rate = [] →
      loopRun env idx sinks vols blocks = some []) := by
  refine ⟨rfl, ?_, ?_⟩
  · intro h1 h2
    simp [loopRun, negotiateInput, h1, h2]
  · intro rate hr ho
    simp [loopRun, hr, ho]

/-- C2 witness: the amended statement applied in the all-closed environment. -/
theorem start_never_fails_witness :
    loopRun envNoDevices 3 [1] [100] [[7]] = none := by
  have h := start_never_fails SyncEngine.init 0 [1] false none none
    envNoDevices 3 [1] [100] [[7]]
  exact h.2.1 rfl rfl

/-- C3 counterexample: a duplicated endpoint index is not de-duplicated:
`output_indices = [3, 3]` opens two streams and both receive every captured
block. -/
theorem duplicate_sinks_counterexample :
    negotiateOutputs envAllOpen [3, 3] 44100 = [(3, 44100), (3, 44100)] ∧
    loopRun envAllOpen 0 [3, 3] [100, 100] [[9]] = some [[[9]], [[9]]] := by
  refine ⟨rfl, rfl⟩

/-- C3 amended: duplicate endpoint indices are kept, not collapsed: when
every requested output opens at the negotiated rate, the active set contains
one stream per occurrence, in order. -/
theorem duplicate_sinks_kept (env : AudioEnv) (idxs : List Nat) (rate : Nat)
    (h : ∀ i ∈ idxs, env.outputOpenOk i rate = true) :
    negotiateOutputs env idxs rate = idxs.map (fun i => (i, rate)) := by
  induction idxs with
  | nil => rfl
  | cons a t ih =>
    have ha : env.outputOpenOk a rate = true := h a (List.mem_cons_self a t)
    have ht : ∀ i ∈ t, env.outputOpenOk i rate = true :=
      fun i hi => h i (List.mem_cons_of_mem a hi)
    simp [negotiateOutputs, List.filterMap_cons, ha, ih ht]
    exact ih ht

/-- C3 witness: the amended statement at a concrete duplicated sink list. -/
theorem duplicate_sinks_kept_witness :
    negotiateOutputs envAllOpen [5, 5] 44100 = [(5, 44100), (5, 44100)] := by
  have h := duplicate_sinks_kept envAllOpen [5, 5] 44100 (by decide)
  exact h

/-! ## Calibration engine (calibration_engine.py) -/

/-- The post-processing that `calibrate_device` applies to the
cross-correlation estimate (calibration_engine.py lines 203–220).
The input is the result of `detect_delay_cross_correlation`: `none` models
the `(None, 0)` it returns when the correlation raised, otherwise the
`(delay_ms, confidence)` pair. A negative estimate is clamped to 0 keeping
the confidence; an estimate above 5000 ms is clamped to 0 with confidence 0;
a numeric pair is then returned — failure (`none`) is propagated only from
the detection step itself. Delays are rationals since
`delay_ms = lag * 1000 / 44100` is fractional. -/
def postProcessDelay (detect : Option (ℚ × ℚ)) : Option (ℚ × ℚ) :=
  match detect with
  | none => none
  | some (d, c) =>
      if d < 0 then some (0, c)
      else if d > 5000 then some (0, 0)
      else some (d, c)

/-- C6 counterexample: an estimate of 6000 ms (outside [0, 5000]) does not
make `calibrate_device` fail — it returns the numeric result (0, 0); a
negative estimate of −37 ms returns (0, confidence). -/
theorem calibrate_out_of_range_counterexample :
    postProcessDelay (some (6000, 1)) = some (0, 0) ∧
    postProcessDelay (some (-37, 9 / 10)) = some (0, 9 / 10) ∧
    (postProcessDelay (some (6000, 1))).isSome = true := by
  refine ⟨by norm_num [postProcessDelay], by norm_num [postProcessDelay],
    by norm_num [postProcessDelay]⟩

/-- C6 amended: out-of-range estimates are clamped, not rejected: a negative
estimate yields (0, confidence), an estimate above 5000 ms yields (0, 0),
and the result of the clamping step is always a numeric pair; failure arises
only when the detection step itself produced none. -/
theorem calibrate_clamps_out_of_range (d c : ℚ) :
    (d < 0 → postProcessDelay (some (d, c)) = some (0, c)) ∧
    (5000 < d → postProcessDelay (some (d, c)) = some (0, 0)) ∧
    (postProcessDelay (some (d, c))).isSome = true ∧
    postProcessDelay none = none := by
  refine ⟨?_, ?_, ?_, rfl⟩
  · intro h
    simp [postProcessDelay, h]
  · intro h
    have h0 : ¬ d < 0 := by linarith
    simp [postProcessDelay, h0, h]
  · simp only [postProcessDelay]
    split_ifs <;> rfl

/-- C6 witness: the amended statement at the concrete estimate 6000 ms. -/
theorem calibrate_clamps_out_of_range_witness :
    postProcessDelay (some (6000, 1)) = some (0, 0) := by
  have h := calibrate_clamps_out_of_range 6000 1
  exact h.2.1 (by norm_num)

/-! ## Stream client (network_client.py) -/

/-- Decode a 4-byte little-endian unsigned length, as
`struct.unpack('I', buffer[:4])[0]` does (network_client.py line 155). -/
def leUint32 (b0 b1 b2 b3 : Nat) : Nat := b0 + 256 * (b1 + 256 * (b2 + 256 * b3))

/-- The framed-binary loop of `_receive_loop` (network_client.py
lines 153–167): while at least 4 bytes remain, read the length; if the whole
frame is present pop it and enqueue the payload, otherwise stop and keep the
bytes. The fuel argument bounds the number of iterations; each iteration
consumes at least four bytes, so a fuel of the buffer length is always
enough. -/
def extractFramesAux : Nat → List Nat → List (List Nat) → List Nat × List (List Nat)
  | 0, buf, acc => (buf, acc)
  | fuel + 1, buf, acc =>
      match buf with
      | b0 :: b1 :: b2 :: b3 :: rest =>
          let size := leUint32 b0 b1 b2 b3
          if size ≤ rest.length then
            extractFramesAux fuel (rest.drop size) (acc ++ [rest.take size])
          else (buf, acc)
      | _ => (buf, acc)

/-- The framed-binary interpretation of a whole buffer: remaining bytes and
the payloads enqueued onto the jitter queue. -/
def extractFrames (buf : List Nat) : List Nat × List (List Nat) :=
  extractFramesAux buf.length buf []

/-- Result of one pass of the receive parser: the remaining buffer, the
jitter queue, and the prefixes that were handled as JSON control messages. -/
structure RecvResult where
  buffer : List Nat
  queue : List (List Nat)
  controls : List (List Nat)
deriving DecidableEq

/-- One iteration of the `_receive_loop` body after `buffer += data`
(network_client.py lines 139–167). Whether a byte string parses as JSON is
abstracted as the oracle `jsonOk`. If the buffer contains a newline
(byte 10), the bytes up to and including the first newline are removed
unconditionally; the removed bytes are handled as a control message when
`jsonOk` holds of them and are silently dropped otherwise (the
`except: pass` at lines 148–150 — the comment there says the bytes should be
treated as audio data, but they were already sliced off the buffer).
The remainder is then scanned as framed binary. -/
def processRecv (jsonOk : List Nat → Bool) (buffer : List Nat)
    (queue : List (List Nat)) : RecvResult :=
  let afterJson :=
    if buffer.contains 10 then
      let i := buffer.indexOf 10
      let head := buffer.take i
      let rest := buffer.drop (i + 1)
      if jsonOk head then (rest, [head]) else (rest, [])
    else (buffer, [])
  let framed := extractFrames afterJson.1
  { buffer := framed.1, queue := queue ++ framed.2, controls := afterJson.2 }

/-- C5: evaluation at the failing input. The buffer holds one complete
length-framed audio packet `[2, 0, 0, 0, 10, 66]` (length 2, payload
containing the newline byte 10) and the length prefix is not valid JSON,
yet the parser drops the five bytes up to the newline: the queue stays
empty and a stray byte 66 remains. Interpreting the same buffer as framed
binary — what the claim prescribes — would instead enqueue the payload
[10, 66] and leave an empty buffer. -/
theorem receive_parser_discards_non_json :
    processRecv (fun _ => false) [2, 0, 0, 0, 10, 66] [] =
      { buffer := [66], queue := [], controls := [] } ∧
    extractFrames [2, 0, 0, 0, 10, 66] = ([], [[10, 66]]) := by
  refine ⟨rfl, rfl⟩

/-- The client state: the fields of `NetworkClient.__init__` relevant to the
claims (network_client.py lines 23–33). Streams and sockets are abstract
handles. -/
structure NetworkClient where
  socket : Option Nat
  is_connected : Bool
  is_playing : Bool
  audio_queue : List (List Nat)
  output_stream : Option Nat
deriving DecidableEq

/-- `NetworkClient.stop_playback` (network_client.py lines 215–231): clear
the playing flag, stop/close and null the output stream, clear the jitter
queue; the socket and connection flag are untouched. -/
def NetworkClient.stopPlayback (c : NetworkClient) : NetworkClient :=
  { c with is_playing := false, output_stream := none, audio_queue := [] }

/-- `NetworkClient.get_buffer_size` (network_client.py lines 254–257). -/
def NetworkClient.getBufferSize (c : NetworkClient) : Nat := c.audio_queue.length

/-- C10: after `stop_playback` the jitter queue is empty (buffer size 0),
playback is off, the output stream is cleared, and the socket and connection
flag are exactly what they were. -/
theorem stop_playback_clears_queue (c : NetworkClient) :
    (c.stopPlayback).audio_queue = [] ∧
    (c.stopPlayback).getBufferSize = 0 ∧
    (c.stopPlayback).is_playing = false ∧
    (c.stopPlayback).output_stream = none ∧
    (c.stopPlayback).socket = c.socket ∧
    (c.stopPlayback).is_connected = c.is_connected := by
  refine ⟨rfl, rfl, rfl, rfl, rfl, rfl⟩

/-! ## Stream server (network_server.py) -/

/-- Client metadata stored in `client_info` (network_server.py
lines 144–148). -/
structure ClientInfo where
  address : Nat
  connectedAt : Nat
  name : String
deriving DecidableEq

/-- The server state: the shared fields of `NetworkServer` guarded by
`self.lock` (network_server.py lines 22–31). Sockets are abstract handles
(Nat); `client_info` is the insertion-ordered dict as an association list
with unique keys. -/
structure NetworkServer where
  is_running : Bool
  clients : List Nat
  client_info : List (Nat × ClientInfo)
deriving DecidableEq

/-- The keys of the `client_info` dict. -/
def infoKeys (s : NetworkServer) : List Nat := s.client_info.map Prod.fst

/-- Python dict assignment `client_info[sock] = v`: replace the value in
place when the key exists, append otherwise. -/
def setInfo (l : List (Nat × ClientInfo)) (k : Nat) (v : ClientInfo) :
    List (Nat × ClientInfo) :=
  if k ∈ l.map Prod.fst then l.map (fun p => if p.1 = k then (k, v) else p)
  else l ++ [(k, v)]

/-- The accept path (network_server.py lines 142–148): append the fresh
socket to `clients` and record its metadata in `client_info`, under the
lock. -/
def acceptClient (s : NetworkServer) (sock : Nat) (addr : Nat) (t : Nat) :
    NetworkServer :=
  { s with clients := s.clients ++ [sock],
           client_info := setInfo s.client_info sock
             { address := addr, connectedAt := t, name := s!"Client {addr}" } }

/-- Removal of one client from both containers, under the lock. This is the
`finally` cleanup of `_handle_client` (network_server.py lines 193–204) and
also the per-failure removal inside `broadcast_audio` (lines 266–275):
`clients.remove` drops the first occurrence, `del client_info[sock]` drops
the dict entry; both are guarded by membership tests, so a missing entry is
a no-op. -/
def removeClient (s : NetworkServer) (sock : Nat) : NetworkServer :=
  { s with clients := s.clients.erase sock,
           client_info := s.client_info.eraseP (fun p => p.1 == sock) }

/-- `NetworkServer.stop` (network_server.py lines 61–85): close every client
socket and clear both containers under the lock. -/
def stopServer (s : NetworkServer) : NetworkServer :=
  { s with is_running := false, clients := [], client_info := [] }

/-- Encode a length as the 4-byte little-endian packet header,
`struct.pack('I', len(audio_bytes))` (network_server.py line 254). -/
def encodeLen32 (n : Nat) : List Nat :=
  [n % 256, n / 256 % 256, n / 65536 % 256, n / 16777216 % 256]

/-- The packet built for one PCM block: length header followed by the raw
bytes (network_server.py line 254). -/
def packetOf (data : List Nat) : List Nat := encodeLen32 data.length ++ data

/-- `NetworkServer.broadcast_audio` (network_server.py lines 237–275).
Whether `sendall` succeeds on a given socket is abstracted as the oracle
`sendOk`. With no clients the call returns immediately. Otherwise the packet
is sent to every client in order; the clients whose send raised are then
removed from both containers (and closed), all under the lock. The returned
list records which client received which packet. -/
def broadcastAudio (sendOk : Nat → Bool) (s : NetworkServer) (data : List Nat) :
    NetworkServer × List (Nat × List Nat) :=
  if s.clients.isEmpty then (s, [])
  else
    let pkt := packetOf data
    let delivered := s.clients.filterMap
      (fun c => if sendOk c then some (c, pkt) else none)
    let disconnected := s.clients.filter (fun c => !sendOk c)
    (disconnected.foldl removeClient s, delivered)

/-- A whole session of broadcasts: the engine worker hands blocks to
`broadcast_audio` one at a time, in capture order (audio_sync.py
lines 210–212). Returns the final server state and all deliveries in order. -/
def broadcastRun (sendOk : Nat → Bool) (s : NetworkServer) :
    List (List Nat) → NetworkServer × List (Nat × List Nat)
  | [] => (s, [])
  | b :: bs =>
      let r := broadcastAudio sendOk s b
      let rest := broadcastRun sendOk r.1 bs
      (rest.1, r.2 ++ rest.2)

/-- The packets delivered to one particular client, in order. -/
def deliveredTo (c : Nat) (l : List (Nat × List Nat)) : List (List Nat) :=
  (l.filter (fun p => p.1 == c)).map Prod.snd

/-- The shared-state invariant of C9: no duplicate sockets, unique dict
keys, and the client list and the metadata keys cover each other. -/
def ServerInv (s : NetworkServer) : Prop :=
  s.clients.Nodup ∧ (infoKeys s).Nodup ∧ ∀ c, c ∈ s.clients ↔ c ∈ infoKeys s

/-- Folding erasures over a list keeps no-duplicates. -/
theorem nodup_foldl_erase (ds : List Nat) (l : List Nat) (h : l.Nodup) :
    (ds.foldl List.erase l).Nodup := by
  induction ds generalizing l with
  | nil => exact h
  | cons a ds ih => exact ih _ (h.erase a)

/-- An element absent from the list stays absent under folded erasures. -/
theorem not_mem_foldl_erase_of_not_mem (ds : List Nat) (l : List Nat) (c : Nat)
    (h : c ∉ l) : c ∉ ds.foldl List.erase l := by
  induction ds generalizing l with
  | nil => exact h
  | cons a ds ih => exact ih _ (fun hc => h (List.erase_subset a l hc))

/-- An element not scheduled for erasure survives folded erasures. -/
theorem mem_foldl_erase (ds : List Nat) (l : List Nat) (c : Nat) (hc : c ∈ l)
    (hds : c ∉ ds) : c ∈ ds.foldl List.erase l := by
  induction ds generalizing l with
  | nil => exact hc
  | cons a ds ih =>
    have hne : c ≠ a := fun h => hds (h ▸ List.mem_cons_self a ds)
    exact ih _ ((List.mem_erase_of_ne hne).2 hc)
      (fun h => hds (List.mem_cons_of_mem a h))

/-- On a duplicate-free list, every scheduled element is gone after the
folded erasures. -/
theorem not_mem_foldl_erase (ds : List Nat) (l : List Nat) (c : Nat)
    (h : l.Nodup) (hc : c ∈ ds) : c ∉ ds.foldl List.erase l := by
  induction ds generalizing l with
  | nil => cases hc
  | cons a ds ih =>
    by_cases hcd : c ∈ ds
    · exact ih _ (h.erase a) hcd
    · have hca : c = a := by
        rcases List.mem_cons.1 hc with h1 | h1
        · exact h1
        · exact absurd h1 hcd
      subst hca
      rw [List.foldl_cons]
      apply not_mem_foldl_erase_of_not_mem
      intro hmem
      exact ((List.Nodup.mem_erase_iff h).1 hmem).1 rfl

/-- Folded erasures only remove elements. -/
theorem foldl_erase_subset (ds : List Nat) (l : List Nat) :
    ds.foldl List.erase l ⊆ l := by
  induction ds generalizing l with
  | nil => exact fun _ h => h
  | cons a ds ih => exact fun x hx => List.erase_subset a l (ih (l.erase a) hx)

/-- Deleting a dict entry deletes exactly its key from the key list. -/
theorem keys_eraseP (l : List (Nat × ClientInfo)) (c : Nat) :
    (l.eraseP (fun p => p.1 == c)).map Prod.fst = (l.map Prod.fst).erase c := by
  induction l with
  | nil => rfl
  | cons hd tl ih =>
    by_cases h : hd.1 = c
    · simp [List.eraseP_cons, List.erase_cons, h]
    · simp [List.eraseP_cons, List.erase_cons, h, ih]

/-- The client list after folding client removals. -/
theorem clients_foldl_removeClient (ds : List Nat) (s : NetworkServer) :
    (ds.foldl removeClient s).clients = ds.foldl List.erase s.clients := by
  induction ds generalizing s with
  | nil => rfl
  | cons a ds ih => exact ih (removeClient s a)

/-- The metadata keys after folding client removals. -/
theorem infoKeys_foldl_removeClient (ds : List Nat) (s : NetworkServer) :
    infoKeys (ds.foldl removeClient s) = ds.foldl List.erase (infoKeys s) := by
  induction ds generalizing s with
  | nil => rfl
  | cons a ds ih =>
    rw [List.foldl_cons, List.foldl_cons, ih]
    have : infoKeys (removeClient s a) = (infoKeys s).erase a := keys_eraseP _ _
    rw [this]

/-- Removing one client preserves the server invariant. -/
theorem serverInv_removeClient (s : NetworkServer) (hInv : ServerInv s) (c : Nat) :
    ServerInv (removeClient s c) := by
  obtain ⟨h1, h2, h3⟩ := hInv
  refine ⟨h1.erase c, ?_, ?_⟩
  · have : infoKeys (removeClient s c) = (infoKeys s).erase c := keys_eraseP _ _
    rw [this]
    exact h2.erase c
  · intro x
    have hk : infoKeys (removeClient s c) = (infoKeys s).erase c := keys_eraseP _ _
    show x ∈ (removeClient s c).clients ↔ x ∈ infoKeys (removeClient s c)
    rw [hk]
    show x ∈ s.clients.erase c ↔ x ∈ (infoKeys s).erase c
    rw [List.Nodup.mem_erase_iff h1, List.Nodup.mem_erase_iff h2, h3 x]

/-- Folded removals preserve the server invariant. -/
theorem serverInv_foldl_removeClient (ds : List Nat) (s : NetworkServer)
    (hInv : ServerInv s) : ServerInv (ds.foldl removeClient s) := by
  induction ds generalizing s with
  | nil => exact hInv
  | cons a ds ih => exact ih _ (serverInv_removeClient s hInv a)

/-- Dict assignment with a fresh key appends the entry. -/
theorem setInfo_of_not_mem (l : List (Nat × ClientInfo)) (k : Nat) (v : ClientInfo)
    (h : k ∉ l.map Prod.fst) : setInfo l k v = l ++ [(k, v)] := by
  simp [setInfo, h]

/-- C9: the server's shared-state invariant — every socket in `clients` has
a `client_info` entry and every `client_info` key is in `clients`, with no
duplicates — is preserved by the accept path (for a fresh socket), by the
client-handler cleanup, by the failure removal inside `broadcast_audio`, and
by `stop`. -/
theorem server_invariant_preserved (s : NetworkServer) (hInv : ServerInv s) :
    (∀ sock addr t, sock ∉ s.clients → ServerInv (acceptClient s sock addr t)) ∧
    (∀ sock, ServerInv (removeClient s sock)) ∧
    (∀ sendOk data, ServerInv (broadcastAudio sendOk s data).1) ∧
    ServerInv (stopServer s) := by
  obtain ⟨h1, h2, h3⟩ := hInv
  refine ⟨?_, ?_, ?_, ?_⟩
  · intro sock addr t hfresh
    have hkey : sock ∉ infoKeys s := fun h => hfresh ((h3 sock).2 h)
    have hset : setInfo s.client_info sock
        { address := addr, connectedAt := t, name := s!"Client {addr}" } =
        s.client_info ++
          [(sock, { address := addr, connectedAt := t, name := s!"Client {addr}" })] :=
      setInfo_of_not_mem _ _ _ hkey
    refine ⟨?_, ?_, ?_⟩
    · show (s.clients ++ [sock]).Nodup
      rw [List.nodup_append]
      exact ⟨h1, List.nodup_singleton sock, by
        intro x hx hmem
        rcases List.mem_singleton.1 hmem with rfl
        exact hfresh hx⟩
    · show ((acceptClient s sock addr t).client_info.map Prod.fst).Nodup
      show ((setInfo s.client_info sock _).map Prod.fst).Nodup
      rw [hset, List.map_append]
      rw [List.nodup_append]
      exact ⟨h2, List.nodup_singleton sock, by
        intro x hx hmem
        rcases List.mem_singleton.1 hmem with rfl
        exact hkey hx⟩
    · intro c
      show c ∈ s.clients ++ [sock] ↔ c ∈ (setInfo s.client_info sock _).map Prod.fst
      rw [hset, List.map_append, List.mem_append, List.mem_append]
      constructor
      · rintro (hc | hc)
        · exact Or.inl ((h3 c).1 hc)
        · exact Or.inr (by simpa using hc)
      · rintro (hc | hc)
        · exact Or.inl ((h3 c).2 hc)
        · exact Or.inr (by simpa using hc)
  · intro sock
    exact serverInv_removeClient s ⟨h1, h2, h3⟩ sock
  · intro sendOk data
    by_cases he : s.clients.isEmpty
    · simp only [broadcastAudio, he, if_pos]
      exact ⟨h1, h2, h3⟩
    · simp only [broadcastAudio, he, if_neg, Bool.false_eq_true, not_false_iff]
      exact serverInv_foldl_removeClient _ s ⟨h1, h2, h3⟩
  · exact ⟨List.nodup_nil, List.nodup_nil, fun c => by simp [stopServer, infoKeys]⟩

/-- A concrete one-client server state used by the witnesses. -/
def serverOneClient : NetworkServer :=
  { is_running := true, clients := [1],
    client_info := [(1, { address := 7, connectedAt := 0, name := "a" })] }

/-- C9 witness: the preservation theorem applied at the concrete one-client
state, read off at the stop transition. -/
theorem server_invariant_preserved_witness :
    ServerInv (stopServer serverOneClient) := by
  have hInv : ServerInv serverOneClient :=
    ⟨by decide, by decide, fun c => Iff.rfl⟩
  exact (server_invariant_preserved serverOneClient hInv).2.2.2

/-- A client that appears nowhere in the send loop receives nothing. -/
theorem deliveredTo_of_not_mem (sendOk : Nat → Bool) (l : List Nat) (c : Nat)
    (pkt : List Nat) (h : c ∉ l) :
    deliveredTo c (l.filterMap (fun x => if sendOk x then some (x, pkt) else none)) =
      [] := by
  induction l with
  | nil => rfl
  | cons a t ih =>
    have hne : a ≠ c := fun hh => h (hh ▸ List.mem_cons_self a t)
    have ht : c ∉ t := fun hh => h (List.mem_cons_of_mem a hh)
    by_cases ha : sendOk a
    · simp [List.filterMap_cons, ha, deliveredTo, List.filter_cons, hne, ih ht,
        deliveredTo] at ih ht ⊢
      simpa [deliveredTo] using ih ht
    · simp [List.filterMap_cons, ha]
      exact ih ht

/-- In one send loop over a duplicate-free client list, a client whose send
succeeds receives exactly one copy of the packet. -/
theorem deliveredTo_filterMap (sendOk : Nat → Bool) (l : List Nat) (c : Nat)
    (pkt : List Nat) (hl : l.Nodup) (hc : c ∈ l) (hok : sendOk c = true) :
    deliveredTo c (l.filterMap (fun x => if sendOk x then some (x, pkt) else none)) =
      [pkt] := by
  induction l with
  | nil => cases hc
  | cons a t ih =>
    have hnd := List.nodup_cons.1 hl
    by_cases hac : c = a
    · subst hac
      have hta : c ∉ t := hnd.1
      simp [List.filterMap_cons, hok, deliveredTo, List.filter_cons]
      have := deliveredTo_of_not_mem sendOk t c pkt hta
      simpa [deliveredTo] using this
    · have hct : c ∈ t := by
        rcases List.mem_cons.1 hc with h1 | h1
        · exact absurd h1 hac
        · exact h1
      have hca : ¬(a = c) := fun h => hac h.symm
      by_cases ha : sendOk a
      · simp [List.filterMap_cons, ha, deliveredTo, List.filter_cons, hca]
        have := ih hnd.2 hct
        simpa [deliveredTo] using this
      · simp [List.filterMap_cons, ha]
        exact ih hnd.2 hct

/-- One broadcast step, seen by a client whose send succeeds: it stays in
the client set (which stays duplicate-free) and receives exactly the packet
for this block. -/
theorem broadcast_step_keep (sendOk : Nat → Bool) (s : NetworkServer)
    (b : List Nat) (c : Nat) (hnd : s.clients.Nodup) (hc : c ∈ s.clients)
    (hok : sendOk c = true) :
    (broadcastAudio sendOk s b).1.clients.Nodup ∧
    c ∈ (broadcastAudio sendOk s b).1.clients ∧
    deliveredTo c (broadcastAudio sendOk s b).2 = [packetOf b] := by
  have hne : ¬ s.clients.isEmpty := by
    cases h : s.clients with
    | nil => rw [h] at hc; cases hc
    | cons a t => simp
  simp only [broadcastAudio, hne, if_neg, Bool.false_eq_true, not_false_iff]
  have hdisc : c ∉ s.clients.filter (fun x => !sendOk x) := by
    intro hmem
    have := List.of_mem_filter hmem
    rw [hok] at this
    cases this
  refine ⟨?_, ?_, ?_⟩
  · rw [clients_foldl_removeClient]
    exact nodup_foldl_erase _ _ hnd
  · rw [clients_foldl_removeClient]
    exact mem_foldl_erase _ _ _ hc hdisc
  · exact deliveredTo_filterMap sendOk s.clients c (packetOf b) hnd hc hok

/-- One broadcast step, seen by a client whose send raises: it is removed
from the client set. -/
theorem broadcast_step_drop (sendOk : Nat → Bool) (s : NetworkServer)
    (b : List Nat) (c : Nat) (hnd : s.clients.Nodup) (hc : c ∈ s.clients)
    (hok : sendOk c = false) :
    c ∉ (broadcastAudio sendOk s b).1.clients := by
  have hne : ¬ s.clients.isEmpty := by
    cases h : s.clients with
    | nil => rw [h] at hc; cases hc
    | cons a t => simp
  simp only [broadcastAudio, hne, if_neg, Bool.false_eq_true, not_false_iff]
  rw [clients_foldl_removeClient]
  have hdisc : c ∈ s.clients.filter (fun x => !sendOk x) :=
    List.mem_filter.2 ⟨hc, by rw [hok]; rfl⟩
  exact not_mem_foldl_erase _ _ _ hnd hdisc

/-- A broadcast step never adds clients. -/
theorem broadcast_clients_subset (sendOk : Nat → Bool) (s : NetworkServer)
    (b : List Nat) : (broadcastAudio sendOk s b).1.clients ⊆ s.clients := by
  by_cases hne : s.clients.isEmpty
  · simp [broadcastAudio, hne]
  · simp only [broadcastAudio, hne, if_neg, Bool.false_eq_true, not_false_iff]
    rw [clients_foldl_removeClient]
    exact foldl_erase_subset _ _

/-- A broadcast session never adds clients. -/
theorem broadcastRun_clients_subset (sendOk : Nat → Bool) (s : NetworkServer)
    (blocks : List (List Nat)) :
    (broadcastRun sendOk s blocks).1.clients ⊆ s.clients := by
  induction blocks generalizing s with
  | nil => exact fun x h => h
  | cons b bs ih =>
    intro x hx
    exact broadcast_clients_subset sendOk s b
      (ih (broadcastAudio sendOk s b).1 hx)

/-- C8: over a session of broadcasts on a duplicate-free client set, a
client whose sends succeed receives, in order, exactly one packet per block,
each being the 4-byte little-endian length prefix followed by the block's
bytes; every client whose send raises is removed from the client set. -/
theorem broadcast_wire_format (sendOk : Nat → Bool) (s : NetworkServer)
    (blocks : List (List Nat)) (c : Nat) (hnd : s.clients.Nodup)
    (hc : c ∈ s.clients) (hok : sendOk c = true) :
    deliveredTo c (broadcastRun sendOk s blocks).2 =
      blocks.map (fun b => encodeLen32 b.length ++ b) ∧
    ∀ d, d ∈ s.clients → sendOk d = false → blocks ≠ [] →
      d ∉ (broadcastRun sendOk s blocks).1.clients := by
  induction blocks generalizing s with
  | nil =>
    refine ⟨rfl, ?_⟩
    intro d _ _ habs
    exact absurd rfl habs
  | cons b bs ih =>
    have step := broadcast_step_keep sendOk s b c hnd hc hok
    have ihh := ih (broadcastAudio sendOk s b).1 step.1 step.2.1
    constructor
    · show deliveredTo c
        ((broadcastAudio sendOk s b).2 ++
          (broadcastRun sendOk (broadcastAudio sendOk s b).1 bs).2) = _
      rw [deliveredTo, List.filter_append, List.map_append]
      have h1 : deliveredTo c (broadcastAudio sendOk s b).2 = [packetOf b] :=
        step.2.2
      rw [deliveredTo] at h1 ihh
      rw [h1, ihh.1]
      rfl
    · intro d hd hdok _
      have hgone : d ∉ (broadcastAudio sendOk s b).1.clients :=
        broadcast_step_drop sendOk s b d hnd hd hdok
      intro habs
      exact hgone (broadcastRun_clients_subset sendOk _ bs habs)

/-- A concrete two-client server state used by the C8 witness. -/
def serverTwoClients : NetworkServer :=
  { is_running := true, clients := [1, 2],
    client_info := [(1, { address := 7, connectedAt := 0, name := "a" }),
                    (2, { address := 8, connectedAt := 0, name := "b" })] }

/-- C8 witness: with clients 1 and 2, client 2's sends failing, a broadcast
of the single block [5] delivers the framed packet to client 1 and removes
client 2. -/
theorem broadcast_wire_format_witness :
    deliveredTo 1 (broadcastRun (fun x => x == 1) serverTwoClients [[5]]).2 =
      [[1, 0, 0, 0, 5]] ∧
    2 ∉ (broadcastRun (fun x => x == 1) serverTwoClients [[5]]).1.clients := by
  have h := broadcast_wire_format (fun x => x == 1) serverTwoClients [[5]] 1
    (by decide) (by decide) (by decide)
  refine ⟨?_, ?_⟩
  · rw [h.1]
    rfl
  · exact h.2 2 (by decide) (by decide) (by decide)
